import Mathlib

/-!
Verification of the Blog-app post-loading pipeline.

The repository is a markdown blog: post files carry a front-matter block
(`title`, `excerpt`, `image`, `isFeatured`, `date`) followed by a markdown
body.  The page `src/pages/index.js` feeds `getFeaturedPosts()` straight into
the `FeaturedPosts` component.  The loader library itself
(`lib/posts-utils.js`) is not part of the sources available here, so its
operations are modelled from the specification; the date strings, front-matter
values and the page glue are embedded from the source files directly.
-/

/-! ### Date strings and their two orders

JavaScript compares strings code-unit by code-unit; `lexLt` embeds that
order.  `parseDate` reads a `YYYY-M-D`-shaped string into a calendar triple,
and `chronLt` / `chronLe` compare dates chronologically.
-/

/-- Code-unit lexicographic strict order on character lists, as JavaScript's
`<` computes it on strings. -/
def lexLtChars : List Char → List Char → Bool
  | _, [] => false
  | [], _ :: _ => true
  | a :: as, b :: bs =>
    if a.val < b.val then true
    else if b.val < a.val then false
    else lexLtChars as bs

/-- Lexical (code-unit) strict order on strings. -/
def lexLt (a b : String) : Bool :=
  lexLtChars a.data b.data

/-- Split a character list on the dash character. -/
def splitDashes : List Char → List (List Char)
  | [] => [[]]
  | c :: cs =>
    match splitDashes cs with
    | [] => [[]]
    | g :: gs => if c = '-' then [] :: g :: gs else (c :: g) :: gs

/-- Read a non-empty all-digit character list as a natural number. -/
def digitsToNat? (cs : List Char) : Option Nat :=
  if cs ≠ [] ∧ cs.all Char.isDigit then
    some (cs.foldl (fun n c => 10 * n + (c.toNat - 48)) 0)
  else none

/-- Parse a date string of shape `Y-M-D` into a (year, month, day) triple. -/
def parseDate (s : String) : Option (Nat × Nat × Nat) :=
  match splitDashes s.data with
  | [y, m, d] =>
    match digitsToNat? y, digitsToNat? m, digitsToNat? d with
    | some yn, some mn, some dn => some (yn, mn, dn)
    | _, _, _ => none
  | _ => none

/-- Calendar key of a date string; unparseable strings sort first. -/
def dateKey (s : String) : Nat × Nat × Nat :=
  (parseDate s).getD (0, 0, 0)

/-- Strict lexicographic order on (year, month, day) triples. -/
def tripleLt : Nat × Nat × Nat → Nat × Nat × Nat → Bool
  | (y1, m1, d1), (y2, m2, d2) =>
    decide (y1 < y2 ∨ (y1 = y2 ∧ (m1 < m2 ∨ (m1 = m2 ∧ d1 < d2))))

/-- Non-strict lexicographic order on (year, month, day) triples. -/
def tripleLe : Nat × Nat × Nat → Nat × Nat × Nat → Bool
  | (y1, m1, d1), (y2, m2, d2) =>
    decide (y1 < y2 ∨ (y1 = y2 ∧ (m1 < m2 ∨ (m1 = m2 ∧ d1 ≤ d2))))

/-- Chronological strict order on date strings. -/
def chronLt (a b : String) : Bool :=
  tripleLt (dateKey a) (dateKey b)

/-- Chronological non-strict order on date strings. -/
def chronLe (a b : String) : Bool :=
  tripleLe (dateKey a) (dateKey b)

/-- A date string is in zero-padded ISO form when it splits into all-digit
groups of widths 4, 2 and 2. -/
def isPaddedISO (s : String) : Bool :=
  match splitDashes s.data with
  | [y, m, d] =>
    decide (y.length = 4 ∧ m.length = 2 ∧ d.length = 2 ∧
      (y.all Char.isDigit ∧ m.all Char.isDigit ∧ d.all Char.isDigit))
  | _ => false

/-- The `date` front-matter values of the eight post files in the repository:
`posts/Deployment-nextjs.md`, `posts/Next-auth-nextjs.md`,
`posts/Security-authetication-nodejs.md` and the five unnamed markdown posts
(Mastering JavaScript, Node web server, Express.js, Node performance,
GraphQL). -/
def repoDates : List String :=
  ["2024-10-30", "2024-10-30", "2024-9-21", "2021-10-30",
   "2024-09-10", "2024-09-11", "2024-9-16", "2024-9-25"]

example : lexLt "2024-10-30" "2024-9-21" = true := by decide

example : chronLt "2024-10-30" "2024-9-21" = false := by decide

example : parseDate "2024-9-21" = some (2024, 9, 21) := by decide

/-! ### The post data model and the loader

The loader library `lib/posts-utils.js` is not among the available sources
(only its caller `src/pages/index.js` is), so the loader's operations below
are modelled from the specification, sections 3, 4.1 and 7.
-/

/-- A parsed front-matter value: the YAML scalars occurring in the post
headers are strings and booleans. -/
inductive FMValue where
  | str (s : String)
  | bool (b : Bool)
deriving DecidableEq, Repr

/-- A markdown post file as the loader sees it: a filename, the parsed
front-matter key-value pairs, and the body text after the metadata block. -/
structure PostFile where
  filename : String
  front : List (String × FMValue)
  body : String
deriving DecidableEq, Repr

/-- A post record, the only entity of the data model. -/
structure Post where
  slug : String
  title : String
  date : String
  image : String
  excerpt : String
  isFeatured : Bool
  content : String
deriving DecidableEq, Repr

/-- The loader's error taxonomy from the specification. -/
inductive LoadError where
  | notFound
  | malformedPost
  | ioFailure
deriving DecidableEq, Repr

/-- Look a key up in a front-matter block (first binding wins). -/
def lookupFM (key : String) : List (String × FMValue) → Option FMValue
  | [] => none
  | (k, v) :: rest => if k = key then some v else lookupFM key rest

/-- Project a front-matter value to a string field; a missing or
non-string value yields none. -/
def getStr : Option FMValue → Option String
  | some (.str s) => some s
  | _ => none

/-- Coerce a front-matter value to the `isFeatured` boolean: an absent key or
a non-boolean value counts as false. -/
def coerceBool : Option FMValue → Bool
  | some (.bool b) => b
  | _ => false

/-- Modelled from the spec: slug derivation in the missing loader library
(`lib/posts-utils.js`) — the slug is the filename with its `.md` extension
removed. -/
def stripMd (name : String) : String :=
  match name.data.reverse with
  | c1 :: c2 :: c3 :: rest =>
    if c1 = 'd' ∧ c2 = 'm' ∧ c3 = '.' then String.mk rest.reverse else name
  | _ => name

/-- Whether a filename ends in the `.md` extension. -/
def hasMdSuffix (name : String) : Bool :=
  match name.data.reverse with
  | c1 :: c2 :: c3 :: _ => decide (c1 = 'd' ∧ c2 = 'm' ∧ c3 = '.')
  | _ => false

/-- Modelled from the spec: per-file parsing in the missing loader library —
the four fields `title`, `date`, `image`, `excerpt` are required and their
absence is the `MalformedPost` error condition; `isFeatured` defaults to
false when absent. -/
def parsePost (f : PostFile) : Except LoadError Post :=
  match getStr (lookupFM "title" f.front), getStr (lookupFM "date" f.front),
        getStr (lookupFM "image" f.front), getStr (lookupFM "excerpt" f.front) with
  | some t, some dt, some im, some ex =>
    .ok { slug := stripMd f.filename, title := t, date := dt, image := im,
          excerpt := ex, isFeatured := coerceBool (lookupFM "isFeatured" f.front),
          content := f.body }
  | _, _, _, _ => .error .malformedPost

/-- The newest-first ordering relation on post records: `dateDesc A B` holds
when B's date is chronologically at most A's date. -/
def dateDesc (A B : Post) : Prop :=
  chronLe B.date A.date = true

instance : DecidableRel dateDesc := fun A B =>
  inferInstanceAs (Decidable (chronLe B.date A.date = true))

/-- Modelled from the spec: `load all posts` in the missing loader library —
parse every file of the posts directory (a malformed file fails the load
deterministically) and sort the records by date descending, most recent
first. -/
def getAllPosts (files : List PostFile) : Except LoadError (List Post) :=
  (files.mapM parsePost).map (List.insertionSort dateDesc)

/-- Modelled from the spec: `load featured posts` in the missing loader
library — the subset of all posts whose `isFeatured` flag is true, in the
same descending-date order. -/
def getFeaturedPosts (files : List PostFile) : Except LoadError (List Post) :=
  (getAllPosts files).map (List.filter (fun p => p.isFeatured))

/-- Modelled from the spec: `load post by slug` in the missing loader
library — the record of the file whose filename maps to the slug, or a
`NotFound` error when no file does. -/
def getPostBySlug (files : List PostFile) (slug : String) : Except LoadError Post :=
  match files.find? (fun f => stripMd f.filename == slug) with
  | some f => parsePost f
  | none => .error .notFound

/-- Modelled from the spec: `list all post slugs` in the missing loader
library — one slug per file, the filename minus its extension. -/
def getAllSlugs (files : List PostFile) : List String :=
  files.map (fun f => stripMd f.filename)

/-- The props object the home page receives. -/
structure HomeProps where
  posts : List Post
deriving DecidableEq, Repr

/-- The static-props result object built by the home page. -/
structure StaticPropsResult where
  props : HomeProps
deriving DecidableEq, Repr

/-- Embedding of `getStaticProps` in `src/pages/index.js`: it wraps the
unmodified result of `getFeaturedPosts()` as `{ props: { posts } }`. -/
def getStaticProps (files : List PostFile) : Except LoadError StaticPropsResult :=
  (getFeaturedPosts files).map (fun l => { props := { posts := l } })

/-! ### Order lemmas for the sort -/

lemma tripleLe_total (x y : Nat × Nat × Nat) :
    tripleLe x y = true ∨ tripleLe y x = true := by
  rcases x with ⟨y1, m1, d1⟩
  rcases y with ⟨y2, m2, d2⟩
  simp only [tripleLe, decide_eq_true_eq]
  omega

lemma tripleLe_trans (x y z : Nat × Nat × Nat)
    (h1 : tripleLe x y = true) (h2 : tripleLe y z = true) :
    tripleLe x z = true := by
  rcases x with ⟨y1, m1, d1⟩
  rcases y with ⟨y2, m2, d2⟩
  rcases z with ⟨y3, m3, d3⟩
  simp only [tripleLe, decide_eq_true_eq] at h1 h2 ⊢
  omega

instance : IsTotal Post dateDesc :=
  ⟨fun a b => (tripleLe_total (dateKey b.date) (dateKey a.date)).imp id id⟩

instance : IsTrans Post dateDesc :=
  ⟨fun _ _ _ h1 h2 => tripleLe_trans _ _ _ h2 h1⟩

/-! ### The raw front-matter split

The metadata block sits between two `---` delimiter lines at the top of a
file; the body is everything after the closing delimiter.  This split is
modelled from the spec (the front-matter parsing happens inside the missing
loader library), on a line-list representation of the raw file text.
-/

/-- Scan lines up to the closing `---` delimiter, returning the metadata
lines before it and the body lines after it. -/
def takeUntilDashes : List String → Option (List String × List String)
  | [] => none
  | l :: rest =>
    if l = "---" then some ([], rest)
    else
      match takeUntilDashes rest with
      | some (fm, body) => some (l :: fm, body)
      | none => none

/-- Modelled from the spec: the front-matter split of the missing loader
library — a file starting with a `---` line is split into the metadata lines
up to the next `---` line and the body after it. -/
def splitFrontMatter : List String → Option (List String × List String)
  | [] => none
  | l :: rest => if l = "---" then takeUntilDashes rest else none

/-- The `content` a loaded record carries: the body part of the split. -/
def contentOf (lines : List String) : Option (List String) :=
  (splitFrontMatter lines).map (fun pr => pr.2)

/-! ### Concrete inputs for witnesses

A three-file posts directory following the specification's example scenario
(section 8: files dated 2024-01-01, 2024-10-30 featured, 2021-10-30), plus a
file whose front-matter lacks `title`.
-/

def sampleFileA : PostFile :=
  { filename := "first-post.md",
    front := [("title", .str "First Post"), ("excerpt", .str "A"),
              ("image", .str "a.png"), ("date", .str "2024-01-01")],
    body := "body A" }

def sampleFileB : PostFile :=
  { filename := "second-post.md",
    front := [("title", .str "Second Post"), ("excerpt", .str "B"),
              ("image", .str "b.png"), ("isFeatured", .bool true),
              ("date", .str "2024-10-30")],
    body := "body B" }

def sampleFileC : PostFile :=
  { filename := "third-post.md",
    front := [("title", .str "Third Post"), ("excerpt", .str "C"),
              ("image", .str "c.png"), ("isFeatured", .bool false),
              ("date", .str "2021-10-30")],
    body := "body C" }

def sampleFiles : List PostFile :=
  [sampleFileA, sampleFileB, sampleFileC]

def noTitleFile : PostFile :=
  { filename := "no-title.md",
    front := [("excerpt", .str "X"), ("image", .str "x.png"),
              ("date", .str "2024-05-05")],
    body := "body X" }

def sampleRecA : Post :=
  { slug := "first-post", title := "First Post", date := "2024-01-01",
    image := "a.png", excerpt := "A", isFeatured := false, content := "body A" }

def sampleRecB : Post :=
  { slug := "second-post", title := "Second Post", date := "2024-10-30",
    image := "b.png", excerpt := "B", isFeatured := true, content := "body B" }

def sampleRecC : Post :=
  { slug := "third-post", title := "Third Post", date := "2021-10-30",
    image := "c.png", excerpt := "C", isFeatured := false, content := "body C" }

example : parsePost sampleFileA = .ok sampleRecA := rfl

example : getAllPosts sampleFiles = .ok [sampleRecB, sampleRecA, sampleRecC] := rfl

example : getFeaturedPosts sampleFiles = .ok [sampleRecB] := rfl

/-! ### Helper lemmas shared across the results -/

lemma getAllPosts_sorted_key (files : List PostFile) (l : List Post)
    (h : getAllPosts files = .ok l) :
    l.Pairwise (fun A B => chronLe B.date A.date = true) := by
  unfold getAllPosts at h
  cases hm : files.mapM parsePost with
  | error e => rw [hm] at h; exact absurd h (by simp [Except.map])
  | ok posts =>
    rw [hm] at h
    simp only [Except.map, Except.ok.injEq] at h
    subst h
    exact List.sorted_insertionSort dateDesc posts

lemma getFeaturedPosts_eq_filter (files : List PostFile) (allP featP : List Post)
    (hAll : getAllPosts files = .ok allP) (hFeat : getFeaturedPosts files = .ok featP) :
    featP = allP.filter (fun p => p.isFeatured) := by
  unfold getFeaturedPosts at hFeat
  rw [hAll] at hFeat
  simp only [Except.map, Except.ok.injEq] at hFeat
  exact hFeat.symm

lemma getFeaturedPosts_ok_elim (files : List PostFile) (featP : List Post)
    (hFeat : getFeaturedPosts files = .ok featP) :
    ∃ allP, getAllPosts files = .ok allP ∧ featP = allP.filter (fun p => p.isFeatured) := by
  unfold getFeaturedPosts at hFeat
  cases hAll : getAllPosts files with
  | error e => rw [hAll] at hFeat; exact absurd hFeat (by simp [Except.map])
  | ok allP =>
    rw [hAll] at hFeat
    simp only [Except.map, Except.ok.injEq] at hFeat
    exact ⟨allP, rfl, hFeat.symm⟩

/-! ### C1: lexical versus chronological comparison of the stored dates -/

/-- C1: the claim that for every pair of date strings stored in the posts
directory's front-matter, lexical comparison gives the same result as
calendar comparison, is false: lexically `2024-10-30` sorts before
`2024-9-21`, yet chronologically 2024-10-30 is the later date. -/
theorem repo_dates_lex_chron_counterexample :
    "2024-10-30" ∈ repoDates ∧ "2024-9-21" ∈ repoDates ∧
    lexLt "2024-10-30" "2024-9-21" = true ∧
    chronLt "2024-10-30" "2024-9-21" = false ∧
    chronLt "2024-9-21" "2024-10-30" = true ∧
    ¬ (∀ a ∈ repoDates, ∀ b ∈ repoDates, lexLt a b = chronLt a b) := by
  decide

/-- C1 (amended): for the date strings stored in the posts directory that are
in zero-padded ISO form, lexical comparison agrees with calendar comparison;
the directory however also stores non-padded dates, on which the two orders
disagree. -/
theorem repo_dates_padded_lex_eq_chron :
    ∀ a ∈ repoDates, ∀ b ∈ repoDates,
      isPaddedISO a = true → isPaddedISO b = true →
      lexLt a b = chronLt a b := by
  decide

/-- C1 witness: the amended statement applied to the stored pair
`2024-10-30`, `2024-09-10`. -/
theorem repo_dates_padded_lex_eq_chron_witness :
    "2024-10-30" ∈ repoDates ∧ "2024-09-10" ∈ repoDates ∧
    isPaddedISO "2024-10-30" = true ∧ isPaddedISO "2024-09-10" = true ∧
    lexLt "2024-10-30" "2024-09-10" = chronLt "2024-10-30" "2024-09-10" :=
  ⟨by decide, by decide, by decide, by decide,
   repo_dates_padded_lex_eq_chron "2024-10-30" (by decide) "2024-09-10" (by decide)
     (by decide) (by decide)⟩

/-! ### C2: load all posts is ordered by date descending -/

/-- C2: whenever `load all posts` succeeds, its output is ordered by date
descending: if record A appears before record B then B's date is
chronologically at most A's date. -/
theorem getAllPosts_sorted_date_desc (files : List PostFile) (l : List Post)
    (h : getAllPosts files = .ok l) :
    l.Pairwise (fun A B => chronLe B.date A.date = true) :=
  getAllPosts_sorted_key files l h

/-- C2 witness: the descending-date invariant evaluated on the three-file
sample directory. -/
theorem getAllPosts_sorted_date_desc_witness :
    ([sampleRecB, sampleRecA, sampleRecC] : List Post).Pairwise
      (fun A B => chronLe B.date A.date = true) :=
  getAllPosts_sorted_date_desc sampleFiles [sampleRecB, sampleRecA, sampleRecC] rfl

/-! ### C3: featured posts are the featured subsequence of all posts -/

/-- C3: when both loads succeed, `load featured posts` equals the
subsequence of `load all posts` consisting of exactly the records with
`isFeatured` true, preserving relative order, and when no post is featured
the result is the empty sequence. -/
theorem getFeaturedPosts_subseq (files : List PostFile) (allP featP : List Post)
    (hAll : getAllPosts files = .ok allP) (hFeat : getFeaturedPosts files = .ok featP) :
    featP = allP.filter (fun p => p.isFeatured) ∧
    featP.Sublist allP ∧
    (∀ p ∈ featP, p.isFeatured = true) ∧
    ((∀ p ∈ allP, p.isFeatured = false) → featP = []) := by
  have hfi := getFeaturedPosts_eq_filter files allP featP hAll hFeat
  subst hfi
  refine ⟨rfl, List.filter_sublist allP, ?_, ?_⟩
  · intro p hp
    exact (List.mem_filter.1 hp).2
  · intro hnone
    rw [List.filter_eq_nil_iff]
    intro p hp
    simp [hnone p hp]

/-- C3 witness: the featured-subsequence facts evaluated on the three-file
sample directory, whose only featured record is `sampleRecB`. -/
theorem getFeaturedPosts_subseq_witness :
    ([sampleRecB] : List Post) = [sampleRecB, sampleRecA, sampleRecC].filter (fun p => p.isFeatured) ∧
    ([sampleRecB] : List Post).Sublist [sampleRecB, sampleRecA, sampleRecC] ∧
    (∀ p ∈ ([sampleRecB] : List Post), p.isFeatured = true) ∧
    ((∀ p ∈ ([sampleRecB, sampleRecA, sampleRecC] : List Post), p.isFeatured = false) →
      ([sampleRecB] : List Post) = []) :=
  getFeaturedPosts_subseq sampleFiles [sampleRecB, sampleRecA, sampleRecC] [sampleRecB] rfl rfl

/-! ### C4: a slug no file maps to fails with NotFound -/

/-- C4: for every slug that no file of the posts directory maps to,
`load post by slug` fails with the `NotFound` error kind. -/
theorem getPostBySlug_notFound (files : List PostFile) (slug : String)
    (h : ∀ f ∈ files, stripMd f.filename ≠ slug) :
    getPostBySlug files slug = .error .notFound := by
  unfold getPostBySlug
  have hnone : files.find? (fun f => stripMd f.filename == slug) = none := by
    rw [List.find?_eq_none]
    intro f hf
    simpa using h f hf
  rw [hnone]

/-- C4 witness: looking up the slug `nonexistent` in the three-file sample
directory fails with `NotFound`. -/
theorem getPostBySlug_notFound_witness :
    getPostBySlug sampleFiles "nonexistent" = .error .notFound :=
  getPostBySlug_notFound sampleFiles "nonexistent" (by decide)

/-! ### C5: a missing required field is the MalformedPost condition -/

/-- C5: a post file whose front-matter lacks any of the required fields
`title`, `date`, `image`, `excerpt` loads as the `MalformedPost` error, not
as a record with a missing field. -/
theorem parsePost_missing_field_malformed (f : PostFile)
    (h : lookupFM "title" f.front = none ∨ lookupFM "date" f.front = none ∨
         lookupFM "image" f.front = none ∨ lookupFM "excerpt" f.front = none) :
    parsePost f = .error .malformedPost := by
  unfold parsePost
  rcases hti : getStr (lookupFM "title" f.front) with _ | t <;>
    rcases hda : getStr (lookupFM "date" f.front) with _ | dt <;>
      rcases him : getStr (lookupFM "image" f.front) with _ | im <;>
        rcases hex : getStr (lookupFM "excerpt" f.front) with _ | ex <;>
          first
          | rfl
          | (rcases h with h | h | h | h <;> simp_all [getStr])

/-- C5 witness: the file with no `title` field loads as `MalformedPost`. -/
theorem parsePost_missing_field_malformed_witness :
    parsePost noTitleFile = .error .malformedPost :=
  parsePost_missing_field_malformed noTitleFile (by decide)

/-! ### C6: list all slugs -/

lemma stripMd_data (name : String) (h : hasMdSuffix name = true) :
    name.data = (stripMd name).data ++ ['.', 'm', 'd'] := by
  unfold hasMdSuffix at h
  rcases hrev : name.data.reverse with _ | ⟨c1, rest1⟩
  · rw [hrev] at h; simp at h
  rcases rest1 with _ | ⟨c2, rest2⟩
  · rw [hrev] at h; simp at h
  rcases rest2 with _ | ⟨c3, rest⟩
  · rw [hrev] at h; simp at h
  rw [hrev] at h
  simp only [decide_eq_true_eq] at h
  obtain ⟨rfl, rfl, rfl⟩ := h
  have hdata : name.data = rest.reverse ++ ['.', 'm', 'd'] := by
    have hr := congrArg List.reverse hrev
    rw [List.reverse_reverse] at hr
    simpa using hr
  unfold stripMd
  rw [hrev]
  simp [hdata]

lemma stripMd_inj (a b : String) (ha : hasMdSuffix a = true)
    (hb : hasMdSuffix b = true) (hab : stripMd a = stripMd b) : a = b := by
  have h1 := stripMd_data a ha
  have h2 := stripMd_data b hb
  rw [hab] at h1
  exact String.ext (h1.trans h2.symm)

/-- C6: for a posts directory of markdown files with pairwise distinct
filenames, `list all post slugs` returns exactly one slug per file, pairwise
distinct, and the slug at each position is that file's name minus the
extension. -/
theorem getAllSlugs_distinct (files : List PostFile)
    (h1 : (files.map (fun f => f.filename)).Nodup)
    (h2 : ∀ f ∈ files, hasMdSuffix f.filename = true) :
    (getAllSlugs files).length = files.length ∧
    (getAllSlugs files).Nodup ∧
    ∀ i : Nat, (getAllSlugs files)[i]? = (files[i]?).map (fun f => stripMd f.filename) := by
  refine ⟨by simp [getAllSlugs], ?_, ?_⟩
  · have hmm : getAllSlugs files = (files.map (fun f => f.filename)).map stripMd := by
      simp [getAllSlugs, List.map_map]
    rw [hmm]
    refine List.Nodup.map_on ?_ h1
    intro x hx y hy hxy
    obtain ⟨f, hf, rfl⟩ := List.mem_map.1 hx
    obtain ⟨g, hg, rfl⟩ := List.mem_map.1 hy
    exact stripMd_inj f.filename g.filename (h2 f hf) (h2 g hg) hxy
  · intro i
    simp [getAllSlugs, List.getElem?_map]

/-- C6 witness: the slug facts evaluated on the three-file sample directory,
whose slugs are the filenames minus `.md`. -/
theorem getAllSlugs_distinct_witness :
    (getAllSlugs sampleFiles).length = sampleFiles.length ∧
    (getAllSlugs sampleFiles).Nodup ∧
    ∀ i : Nat, (getAllSlugs sampleFiles)[i]? =
      (sampleFiles[i]?).map (fun f => stripMd f.filename) :=
  getAllSlugs_distinct sampleFiles (by decide) (by decide)

/-! ### C7: isFeatured is a strict boolean with default false -/

lemma parsePost_isFeatured_eq (f : PostFile) (p : Post) :
    parsePost f = .ok p → p.isFeatured = coerceBool (lookupFM "isFeatured" f.front) := by
  unfold parsePost
  rcases getStr (lookupFM "title" f.front) with _ | t <;>
    rcases getStr (lookupFM "date" f.front) with _ | dt <;>
      rcases getStr (lookupFM "image" f.front) with _ | im <;>
        rcases getStr (lookupFM "excerpt" f.front) with _ | ex <;>
          intro h <;>
          first
          | (injection h with h; subst h; rfl)
          | simp_all

/-- C7: every record the loader produces carries a strict boolean
`isFeatured`: an absent key yields false, a non-boolean front-matter value
is treated as false, and a boolean value is taken as is. -/
theorem parsePost_isFeatured_strict (f : PostFile) (p : Post)
    (h : parsePost f = .ok p) :
    (lookupFM "isFeatured" f.front = none → p.isFeatured = false) ∧
    (∀ s, lookupFM "isFeatured" f.front = some (.str s) → p.isFeatured = false) ∧
    (∀ b, lookupFM "isFeatured" f.front = some (.bool b) → p.isFeatured = b) := by
  have hcoe := parsePost_isFeatured_eq f p h
  refine ⟨fun hnone => ?_, fun s hs => ?_, fun b hb => ?_⟩
  · rw [hcoe, hnone]; rfl
  · rw [hcoe, hs]; rfl
  · rw [hcoe, hb]; rfl

/-- C7 witness: the `isFeatured` coercion evaluated on a file carrying the
boolean true. -/
theorem parsePost_isFeatured_strict_witness :
    lookupFM "isFeatured" sampleFileB.front = some (.bool true) ∧
    sampleRecB.isFeatured = true :=
  ⟨by decide,
   (parsePost_isFeatured_strict sampleFileB sampleRecB rfl).2.2 true (by decide)⟩

/-! ### C8: the content is the file minus the metadata block -/

lemma takeUntilDashes_decomp :
    ∀ (l fm body : List String), takeUntilDashes l = some (fm, body) →
      l = fm ++ "---" :: body ∧ "---" ∉ fm
  | [], fm, body => by
    intro h
    simp [takeUntilDashes] at h
  | l :: rest, fm, body => by
    intro h
    unfold takeUntilDashes at h
    by_cases hl : l = "---"
    · rw [if_pos hl] at h
      simp only [Option.some.injEq, Prod.mk.injEq] at h
      obtain ⟨h1, h2⟩ := h
      subst h1
      subst h2
      exact ⟨by rw [hl]; rfl, by simp⟩
    · rw [if_neg hl] at h
      cases hrec : takeUntilDashes rest with
      | none => rw [hrec] at h; simp at h
      | some pr =>
        rcases pr with ⟨fm1, body1⟩
        rw [hrec] at h
        simp only [Option.some.injEq, Prod.mk.injEq] at h
        obtain ⟨h1, h2⟩ := h
        subst h1
        subst h2
        obtain ⟨ih1, ih2⟩ := takeUntilDashes_decomp rest fm1 body1 hrec
        constructor
        · rw [List.cons_append, ih1]
        · intro hmem
          rcases List.mem_cons.1 hmem with hme | hme
          · exact hl hme.symm
          · exact ih2 hme

/-- C8: when the front-matter split succeeds, the loaded `content` is the
body part, and the original file lines are exactly the opening delimiter,
the metadata lines, the closing delimiter and that body — so the content is
the original text minus the leading metadata block, with no other
alteration. -/
theorem splitFrontMatter_roundTrip (lines fm body : List String)
    (h : splitFrontMatter lines = some (fm, body)) :
    contentOf lines = some body ∧
    lines = "---" :: (fm ++ "---" :: body) ∧
    "---" ∉ fm := by
  have hmain : lines = "---" :: (fm ++ "---" :: body) ∧ "---" ∉ fm := by
    cases lines with
    | nil => simp [splitFrontMatter] at h
    | cons l rest =>
      simp only [splitFrontMatter] at h
      by_cases hl : l = "---"
      · rw [if_pos hl] at h
        obtain ⟨h1, h2⟩ := takeUntilDashes_decomp rest fm body h
        exact ⟨by rw [hl, h1], h2⟩
      · rw [if_neg hl] at h
        simp at h
  refine ⟨?_, hmain.1, hmain.2⟩
  unfold contentOf
  rw [h]
  rfl

/-- C8 witness: the split of a concrete four-line file, whose content is the
single body line after the metadata block. -/
theorem splitFrontMatter_roundTrip_witness :
    contentOf ["---", "title: GraphQL", "---", "body line"] = some ["body line"] ∧
    (["---", "title: GraphQL", "---", "body line"] : List String) =
      "---" :: (["title: GraphQL"] ++ "---" :: ["body line"]) ∧
    "---" ∉ (["title: GraphQL"] : List String) :=
  splitFrontMatter_roundTrip ["---", "title: GraphQL", "---", "body line"]
    ["title: GraphQL"] ["body line"] rfl

/-! ### C9: the home page passes the loader's output through unmodified -/

/-- C9: `getStaticProps` in `src/pages/index.js` wraps the unmodified result
of `getFeaturedPosts()` as the `posts` prop, so the list reaching the
`FeaturedPosts` component keeps the loader's descending order and its
all-featured filtering. -/
theorem getStaticProps_frame (files : List PostFile) (l : List Post)
    (h : getFeaturedPosts files = .ok l) :
    getStaticProps files = .ok { props := { posts := l } } ∧
    l.Pairwise (fun A B => chronLe B.date A.date = true) ∧
    (∀ p ∈ l, p.isFeatured = true) := by
  obtain ⟨allP, hAll, hfi⟩ := getFeaturedPosts_ok_elim files l h
  refine ⟨?_, ?_, ?_⟩
  · unfold getStaticProps
    rw [h]
    rfl
  · have hs := getAllPosts_sorted_key files allP hAll
    rw [hfi]
    exact hs.sublist (List.filter_sublist allP)
  · intro p hp
    rw [hfi] at hp
    exact (List.mem_filter.1 hp).2

/-- C9 witness: the frame property evaluated on the three-file sample
directory, whose featured list is the single record `sampleRecB`. -/
theorem getStaticProps_frame_witness :
    getStaticProps sampleFiles = .ok { props := { posts := [sampleRecB] } } ∧
    ([sampleRecB] : List Post).Pairwise (fun A B => chronLe B.date A.date = true) ∧
    (∀ p ∈ ([sampleRecB] : List Post), p.isFeatured = true) :=
  getStaticProps_frame sampleFiles [sampleRecB] rfl

/-! ### C10: equal dates leave the descending order underdetermined -/

/-- The slug-and-date of `posts/Deployment-nextjs.md`. -/
def deploymentEntry : String × String :=
  ("Deployment-nextjs", "2024-10-30")

/-- The slug-and-date of `posts/Next-auth-nextjs.md`. -/
def nextAuthEntry : String × String :=
  ("Next-auth-nextjs", "2024-10-30")

/-- C10: the two distinct post files `Deployment-nextjs.md` and
`Next-auth-nextjs.md` carry the same date `2024-10-30` (which occurs exactly
twice among the stored dates), so both relative orders of the two posts
satisfy the descending-date invariant: the invariant alone does not
determine a unique output order for `load all posts`. -/
theorem equal_dates_order_underdetermined :
    deploymentEntry.2 = nextAuthEntry.2 ∧
    deploymentEntry ≠ nextAuthEntry ∧
    repoDates.count "2024-10-30" = 2 ∧
    List.Pairwise (fun A B : String × String => chronLe B.2 A.2 = true)
      [deploymentEntry, nextAuthEntry] ∧
    List.Pairwise (fun A B : String × String => chronLe B.2 A.2 = true)
      [nextAuthEntry, deploymentEntry] ∧
    [deploymentEntry, nextAuthEntry] ≠ [nextAuthEntry, deploymentEntry] ∧
    List.Perm [deploymentEntry, nextAuthEntry] [nextAuthEntry, deploymentEntry] := by
  refine ⟨rfl, by decide, by decide, ?_, ?_, by decide, List.Perm.swap _ _ _⟩
  · refine List.Pairwise.cons ?_ (List.pairwise_singleton _ _)
    intro x hx
    rcases List.mem_singleton.1 hx with rfl
    decide
  · refine List.Pairwise.cons ?_ (List.pairwise_singleton _ _)
    intro x hx
    rcases List.mem_singleton.1 hx with rfl
    decide
